import Mathlib

/-!
Shallow embedding of `src/select-query.ts` (class `SelectQuery<T>`).

Records are modelled as association lists from field names to flat
JavaScript values; a collection handed to the constructor is a list of
items, where an item is either a record object or a primitive (the
latter is rejected by the constructor check). Machine numbers are
modelled as `Int`. Fallible operations return `Except String`, the
error string being the thrown message.
-/

/-- A flat JavaScript runtime value, as stored in a record field. -/
inductive Prim where
  | pNull
  | pUndefined
  | pBool (b : Bool)
  | pNum (n : Int)
  | pStr (s : String)
deriving DecidableEq, Repr

/-- A record object: ordered own properties, field name to value. -/
abbrev RecordObj := List (String × Prim)

/-- An element of a raw collection passed to the constructor:
either a record object or a non-object value (a primitive or null). -/
inductive Item where
  | obj (r : RecordObj)
  | prim (p : Prim)
deriving DecidableEq, Repr

/-- First-match association-list lookup (JavaScript objects have unique
keys, so records built by the library never rely on the order). -/
def alookup {α : Type} : List (String × α) → String → Option α
  | [], _ => none
  | (k, v) :: rest, s => if k = s then some v else alookup rest s

/-- JavaScript property write `{ ...m, [k]: v }`: an existing key keeps
its position and gets the new value, a new key is appended. -/
def aset {α : Type} (m : List (String × α)) (k : String) (v : α) : List (String × α) :=
  if m.any (fun p => p.1 = k) then
    m.map (fun p => if p.1 = k then (k, v) else p)
  else
    m ++ [(k, v)]

/-- Property read `item[key]` on a record object: the value when the own property
exists, `undefined` otherwise. -/
def getField (r : RecordObj) (k : String) : Prim :=
  (alookup r k).getD Prim.pUndefined

/-- Property test `key in item`: whether the own property exists (it may hold
`undefined` and still be present). -/
def hasField (r : RecordObj) (k : String) : Bool :=
  (alookup r k).isSome

/-- Coercion `value.toString()`: throws a TypeError on `null` and `undefined`
(the model message stands for the host TypeError), otherwise the
standard string conversion. From src/select-query.ts lines 283-284,
where the non-null assertion `!` has no runtime effect. -/
def jsToString : Prim → Except String String
  | Prim.pNull => Except.error "TypeError: Cannot read properties of null"
  | Prim.pUndefined => Except.error "TypeError: Cannot read properties of undefined"
  | Prim.pBool b => Except.ok (if b then "true" else "false")
  | Prim.pNum n => Except.ok (toString n)
  | Prim.pStr s => Except.ok s

/-- The ToPropertyKey coercion used by a computed property name
`{ [keyValue]: item }`: total, `String(v)`; unlike `.toString()` it does
not throw on `null`/`undefined`. -/
def toPropKey : Prim → String
  | Prim.pNull => "null"
  | Prim.pUndefined => "undefined"
  | Prim.pBool b => if b then "true" else "false"
  | Prim.pNum n => toString n
  | Prim.pStr s => s

/-- Numeric coercion used by the relational operators: `none` models
NaN. A model of the host semantics; the spec leaves relational
comparison implementation-defined for incomparable types. -/
def jsNumCoerce : Prim → Option Int
  | Prim.pNull => some 0
  | Prim.pUndefined => none
  | Prim.pBool b => some (if b then 1 else 0)
  | Prim.pNum n => some n
  | Prim.pStr s => s.toInt?

/-- Operator `===`, strict equality (src line 224). -/
def jsStrictEq (a b : Prim) : Bool :=
  a = b

/-- Operator `<`, abstract relational comparison (src line 235): string-string is
lexicographic, otherwise numeric with NaN comparing false. -/
def jsLt (a b : Prim) : Bool :=
  match a, b with
  | Prim.pStr x, Prim.pStr y => x < y
  | _, _ =>
    match jsNumCoerce a, jsNumCoerce b with
    | some x, some y => x < y
    | _, _ => false

/-- Operator `<=` (src line 246), same model as `jsLt`. -/
def jsLe (a b : Prim) : Bool :=
  match a, b with
  | Prim.pStr x, Prim.pStr y => x ≤ y
  | _, _ =>
    match jsNumCoerce a, jsNumCoerce b with
    | some x, some y => x ≤ y
    | _, _ => false

/-- Operator `>` (src line 257). -/
def jsGt (a b : Prim) : Bool :=
  jsLt b a

/-- Operator `>=` (src line 268). -/
def jsGe (a b : Prim) : Bool :=
  jsLe b a

/-- Substring test used for `like`: `v1.includes(v2)`. -/
def strIncludes (v1 v2 : String) : Bool :=
  decide (List.IsInfix (v2.toList) (v1.toList))

/-- Method `#like` (src lines 282-295): coerce both sides with
`.toString().toLowerCase()`, then prefix / suffix / substring test
according to the optional type tag. -/
def likeTest (itemValue value : Prim) (type : Option String) : Except String Bool := do
  let s1 ← jsToString itemValue
  let s2 ← jsToString value
  let v1 := s1.toLower
  let v2 := s2.toLower
  if type = some "^like" then
    pure (v1.startsWith v2)
  else if type = some "like$" then
    pure (v1.endsWith v2)
  else
    pure (strIncludes v1 v2)

/-- The switch inside the `where` filter callback (src lines 182-212),
on the runtime operator string; the default branch throws. -/
def whereMatch (itemValue : Prim) (op : String) (value : Prim) : Except String Bool :=
  if op = "===" then Except.ok (jsStrictEq itemValue value)
  else if op = "!==" then Except.ok (!jsStrictEq itemValue value)
  else if op = "<" then Except.ok (jsLt itemValue value)
  else if op = "<=" then Except.ok (jsLe itemValue value)
  else if op = ">" then Except.ok (jsGt itemValue value)
  else if op = ">=" then Except.ok (jsGe itemValue value)
  else if op = "like" then likeTest itemValue value none
  else if op = "^like" then likeTest itemValue value (some "^like")
  else if op = "like$" then likeTest itemValue value (some "like$")
  else Except.error ("Unknown operator: " ++ op)

/-- Model of `Array.prototype.filter` with a fallible callback: the callback runs
left to right and a throw aborts the whole call. -/
def filterE {α : Type} (p : α → Except String Bool) : List α → Except String (List α)
  | [] => Except.ok []
  | x :: xs => do
    let b ← p x
    let rest ← filterE p xs
    pure (if b then x :: rest else rest)

/-- Method `where` (src lines 178-214): filter the collection by the
operator test on `item[key]`. -/
def whereQ (coll : List RecordObj) (key : String) (op : String) (value : Prim) :
    Except String (List RecordObj) :=
  filterE (fun item => whereMatch (getField item key) op value) coll

/-- Method `limit` (src lines 85-91): throw on a non-positive argument,
otherwise `slice(0, limit)`. -/
def limitQ (n : Int) (coll : List RecordObj) : Except String (List RecordObj) :=
  if n ≤ 0 then
    Except.error "Limit must be a positive number."
  else
    Except.ok (coll.take n.toNat)

/-- Method `offset` (src lines 98-104): throw when out of range,
otherwise `slice(offset)`. -/
def offsetQ (n : Int) (coll : List RecordObj) : Except String (List RecordObj) :=
  if n < 0 ∨ (coll.length : Int) ≤ n then
    Except.error "Offset is out of range."
  else
    Except.ok (coll.drop n.toNat)

/-- Method `paginate` (src lines 112-114):
`this.offset((Math.max(num, 1) - 1) * size).limit(size)`. -/
def paginateQ (num size : Int) (coll : List RecordObj) : Except String (List RecordObj) :=
  (offsetQ ((max num 1 - 1) * size) coll).bind (limitQ size)

/-- The per-element projection of `select` (src line 151):
`keys.reduce((acc, key) => ({ ...acc, [key]: item[key] }), {})`. -/
def projectItem (keys : List String) (item : RecordObj) : RecordObj :=
  keys.foldl (fun acc key => aset acc key (getField item key)) []

/-- Method `select` (src lines 149-153): map every element through the
key projection. -/
def selectQ (keys : List String) (coll : List RecordObj) : List RecordObj :=
  coll.map (projectItem keys)

/-- The thrown message of `sum` (src line 136). -/
def sumErrMsg (key : String) : String :=
  "Sum operation failed: the property \x27" ++ key ++
    "\x27 must be a number in every item of the collection."

/-- One step of the `sum` reduce (src lines 128-140): skip `undefined`
and `null`, throw on a non-number, otherwise accumulate. -/
def sumStep (key : String) (acc : Int) (item : RecordObj) : Except String Int :=
  let value := getField item key
  if value = Prim.pUndefined ∨ value = Prim.pNull then
    Except.ok acc
  else
    match value with
    | Prim.pNum n => Except.ok (acc + n)
    | _ => Except.error (sumErrMsg key)

/-- The `reduce` of `sum` with a throwing callback. -/
def sumFold (key : String) (acc : Int) : List RecordObj → Except String Int
  | [] => Except.ok acc
  | item :: rest =>
    match sumStep key acc item with
    | Except.ok acc2 => sumFold key acc2 rest
    | Except.error e => Except.error e

/-- Method `sum` (src lines 127-141). -/
def sumQ (key : String) (coll : List RecordObj) : Except String Int :=
  sumFold key 0 coll

/-- Method `keyBy` (src lines 162-168): fold the collection, and for
every element owning the field, write it under the property key coerced
from its field value; elements lacking the field are skipped. -/
def keyByQ (key : String) (coll : List RecordObj) : List (String × RecordObj) :=
  coll.foldl
    (fun acc item =>
      if hasField item key then aset acc (toPropKey (getField item key)) item else acc)
    []

/-- The last element of a list satisfying a predicate, folded left to
right (used to state the last-write-wins property of `keyBy`). -/
def lastMatch {α : Type} (p : α → Bool) (l : List α) : Option α :=
  l.foldl (fun acc x => if p x then some x else acc) none

/-- The constructor validation (src lines 41-43): every element must be
a non-null object, otherwise the validation error is thrown. `typeof
null` is `"object"` but `null` is rejected explicitly; all other
primitives fail the `typeof` test. -/
def isInvalidItem : Item → Bool
  | Item.obj _ => false
  | Item.prim _ => true

/-- The constructor check `new SelectQuery(collection)` runs before
storing the collection (src lines 40-46). -/
def constructCheck (l : List Item) : Except String (List Item) :=
  if l.any isInvalidItem then
    Except.error "The collection should be an array of objects."
  else
    Except.ok l

/-!
Heap layer: array identity and sharing. The constructor stores the
caller's array by reference (src line 45, `this.#collection =
collection`, no copy), every transform reads the referenced array at
call time and allocates a fresh array for its result (`slice`,
`filter`, `map`), and `get` returns the stored reference (src line 69).
A heap maps array references (indices) to their current contents;
external code may mutate an array in place through its own reference.
-/

/-- The store of arrays: index = array reference. -/
structure Heap where
  arrays : List (List RecordObj)
deriving DecidableEq, Repr

/-- A query value: it holds a reference to its collection array. -/
structure QueryRef where
  ref : Nat
deriving DecidableEq, Repr

/-- The current contents of the array behind a reference. -/
def Heap.look (h : Heap) (r : Nat) : List RecordObj :=
  (h.arrays.get? r).getD []

/-- Allocate a fresh array holding the given contents; its reference is
the next unused index. -/
def Heap.alloc (h : Heap) (a : List RecordObj) : Heap :=
  Heap.mk (h.arrays ++ [a])

/-- External in-place mutation of an existing array through a caller
retained reference: `arr.push(item)`. -/
def Heap.pushAt (h : Heap) (r : Nat) (item : RecordObj) : Heap :=
  Heap.mk (h.arrays.set r (h.look r ++ [item]))

/-- The constructor stores the incoming array reference without copying
(src line 45). -/
def constructH (r : Nat) : QueryRef :=
  QueryRef.mk r

/-- Method `get` returns the stored array reference itself, not a copy
(src lines 68-70). -/
def getH (q : QueryRef) : Nat :=
  q.ref

/-- The shape every transform shares: read the current contents of the
query array, compute the fresh contents, allocate a new array for them
and wrap it in a new query. -/
def liftT (f : List RecordObj → Except String (List RecordObj)) (h : Heap) (q : QueryRef) :
    Except String (Heap × QueryRef) :=
  (f (h.look q.ref)).map (fun fresh => (h.alloc fresh, QueryRef.mk h.arrays.length))

/-- Heap-level `limit` (src lines 85-91). -/
def limitH (h : Heap) (q : QueryRef) (n : Int) : Except String (Heap × QueryRef) :=
  liftT (limitQ n) h q

/-- Heap-level `offset` (src lines 98-104). -/
def offsetH (h : Heap) (q : QueryRef) (n : Int) : Except String (Heap × QueryRef) :=
  liftT (offsetQ n) h q

/-- Heap-level `where` (src lines 178-214). -/
def whereH (h : Heap) (q : QueryRef) (key : String) (op : String) (value : Prim) :
    Except String (Heap × QueryRef) :=
  liftT (fun c => whereQ c key op value) h q

/-- Heap-level `select` (src lines 149-153). -/
def selectH (h : Heap) (q : QueryRef) (keys : List String) : Except String (Heap × QueryRef) :=
  liftT (fun c => Except.ok (selectQ keys c)) h q

/-- Heap-level `paginate` (src lines 112-114): the chained
`offset(...).limit(size)`, allocating an intermediate query. -/
def paginateH (h : Heap) (q : QueryRef) (num size : Int) : Except String (Heap × QueryRef) := do
  let (h2, q2) ← offsetH h q ((max num 1 - 1) * size)
  limitH h2 q2 size

/-- The closed operator set, in source order (src lines 1-11). -/
def operators : List String :=
  ["===", "!==", "<", "<=", ">", ">=", "like", "^like", "like$"]

/-- A field value that `sum` rejects: present and not a number
(`null` and `undefined` are skipped, numbers accumulate). -/
def isBadSumValue : Prim → Bool
  | Prim.pBool _ => true
  | Prim.pStr _ => true
  | _ => false

/-- The numeric contribution of a field value to `sum`: the number
itself, 0 for a skipped (`null`/`undefined`/absent) value. -/
def numVal : Prim → Int
  | Prim.pNum n => n
  | _ => 0

/-- A heap-level transform result preserves every pre-existing array
and wraps a freshly allocated one: no array that existed before the
call is changed, and the result query references none of them. -/
def preservesHeap (h : Heap) (r : Except String (Heap × QueryRef)) : Prop :=
  ∀ h2 q2, r = Except.ok (h2, q2) →
    (∀ i, i < h.arrays.length → h2.arrays[i]? = h.arrays[i]?) ∧
      h.arrays.length ≤ q2.ref ∧ h.arrays.length < h2.arrays.length

/-! Association-list lemmas about the JavaScript property write. -/

theorem alookup_cons {α : Type} (p : String × α) (rest : List (String × α)) (s : String) :
    alookup (p :: rest) s = if p.1 = s then some p.2 else alookup rest s := by
  rcases p with ⟨k, v⟩
  rfl

theorem alookup_map_ne {α : Type} (m : List (String × α)) (k s : String) (v : α)
    (h : s ≠ k) :
    alookup (m.map (fun p => if p.1 = k then (k, v) else p)) s = alookup m s := by
  induction m with
  | nil => rfl
  | cons hd tl ih =>
    rcases hd with ⟨k1, v1⟩
    rw [List.map_cons]
    dsimp only
    by_cases hk : k1 = k
    · subst hk
      rw [if_pos rfl, alookup_cons, alookup_cons]
      dsimp only
      rw [if_neg (fun hx : k1 = s => h hx.symm), if_neg (fun hx : k1 = s => h hx.symm), ih]
    · rw [if_neg hk, alookup_cons, alookup_cons]
      dsimp only
      by_cases hs : k1 = s
      · rw [if_pos hs, if_pos hs]
      · rw [if_neg hs, if_neg hs, ih]

theorem alookup_map_eq {α : Type} (m : List (String × α)) (k : String) (v : α)
    (h : m.any (fun p => decide (p.1 = k))) :
    alookup (m.map (fun p => if p.1 = k then (k, v) else p)) k = some v := by
  induction m with
  | nil => simp at h
  | cons hd tl ih =>
    rcases hd with ⟨k1, v1⟩
    rw [List.map_cons]
    dsimp only
    by_cases hk : k1 = k
    · subst hk
      rw [if_pos rfl, alookup_cons]
      dsimp only
      rw [if_pos rfl]
    · simp only [List.any_cons, Bool.or_eq_true, decide_eq_true_eq] at h
      rcases h with h1 | h1
      · exact absurd h1 hk
      · rw [if_neg hk, alookup_cons]
        dsimp only
        rw [if_neg hk, ih h1]

theorem alookup_append {α : Type} (m₁ m₂ : List (String × α)) (s : String) :
    alookup (m₁ ++ m₂) s =
      match alookup m₁ s with
      | some v => some v
      | none => alookup m₂ s := by
  induction m₁ with
  | nil => rfl
  | cons hd tl ih =>
    rcases hd with ⟨k, v⟩
    by_cases hk : k = s
    · simp [alookup, hk]
    · simp [alookup, hk, ih]

theorem any_key_eq_isSome {α : Type} (m : List (String × α)) (k : String) :
    m.any (fun p => decide (p.1 = k)) = (alookup m k).isSome := by
  induction m with
  | nil => rfl
  | cons hd tl ih =>
    rcases hd with ⟨k1, v1⟩
    by_cases hk : k1 = k
    · simp [alookup, hk]
    · simp [alookup, hk, ih]

/-- Lookup after the JavaScript property write `{ ...m, [k]: v }`:
the written key reads back the new value, every other key is
untouched. -/
theorem alookup_aset {α : Type} (m : List (String × α)) (k s : String) (v : α) :
    alookup (aset m k v) s = if s = k then some v else alookup m s := by
  by_cases hany : m.any (fun p => decide (p.1 = k))
  · rw [aset, if_pos hany]
    by_cases hs : s = k
    · subst hs
      rw [alookup_map_eq _ _ _ hany, if_pos rfl]
    · rw [alookup_map_ne _ _ _ _ hs, if_neg hs]
  · rw [aset, if_neg hany, alookup_append]
    have hnone : alookup m k = none := by
      rw [any_key_eq_isSome] at hany
      exact Option.not_isSome_iff_eq_none.mp (fun hsome => hany hsome)
    by_cases hs : s = k
    · subst hs
      simp [hnone, alookup]
    · cases hm : alookup m s with
      | some v1 => simp only [hm, if_neg hs]
      | none =>
        simp only [hm, alookup, if_neg hs]
        rw [if_neg (fun hks : k = s => hs hks.symm)]

/-- The fold of `select` over the key list: a key in the list reads
back the source field value (which is `undefined` when the source lacks
the property), any other key is absent from the accumulator result. -/
theorem alookup_projectItem_fold (keys : List String) (item : RecordObj) (k : String) :
    ∀ acc : RecordObj,
      alookup (keys.foldl (fun acc key => aset acc key (getField item key)) acc) k =
        if k ∈ keys then some (getField item k) else alookup acc k := by
  induction keys with
  | nil =>
    intro acc
    simp
  | cons key rest ih =>
    intro acc
    rw [List.foldl_cons, ih]
    by_cases hr : k ∈ rest
    · rw [if_pos hr, if_pos (List.mem_cons_of_mem key hr)]
    · rw [if_neg hr, alookup_aset]
      by_cases hk : k = key
      · subst hk
        rw [if_pos rfl, if_pos (List.mem_cons_self k rest)]
      · rw [if_neg hk, if_neg (fun hm => by
          rcases List.mem_cons.mp hm with h1 | h1
          · exact hk h1
          · exact hr h1)]

/-- Field content of one projected element. -/
theorem alookup_projectItem (keys : List String) (item : RecordObj) (k : String) :
    alookup (projectItem keys item) k =
      if k ∈ keys then some (getField item k) else none := by
  rw [projectItem, alookup_projectItem_fold]
  rfl

/-! Claim theorems. -/

/-- C1 (amended): `select(k1,...,kn)` returns a query whose sequence
has the same length and element order as the input, and whose i-th
element contains exactly the named keys: a named key present on the
source element keeps its value, while a named key absent from the
source element is still created on the projection, holding the
`undefined` value; every key not named is absent. -/
theorem select_projects_named_keys (keys : List String) (coll : List RecordObj) :
    (selectQ keys coll).length = coll.length
    ∧ (∀ i : Nat, (selectQ keys coll)[i]? = (coll[i]?).map (projectItem keys))
    ∧ (∀ item k, alookup (projectItem keys item) k =
        if k ∈ keys then some (getField item k) else none) := by
  refine ⟨by simp [selectQ], fun i => ?_, fun item k => alookup_projectItem keys item k⟩
  rw [selectQ, List.getElem?_map]

/-- C1 counterexample: on the source element with no fields,
`select("x")` produces an element on which the key `x` is present
(holding `undefined`), not absent as the claim states; the presence is
observable, e.g. a subsequent `keyBy("x")` indexes the element under
the key `"undefined"` instead of omitting it. -/
theorem select_absent_key_still_present :
    hasField (projectItem ["x"] ([] : RecordObj)) "x" = true
    ∧ hasField ([] : RecordObj) "x" = false
    ∧ selectQ ["x"] [([] : RecordObj)] = [[("x", Prim.pUndefined)]]
    ∧ keyByQ "x" (selectQ ["x"] [([] : RecordObj)]) =
        [("undefined", [("x", Prim.pUndefined)])] := by
  refine ⟨rfl, rfl, rfl, rfl⟩

/-- C4: `offset(n)` fails with the range error exactly when `n < 0` or
`n >= length` (hence for every non-negative `n` on an empty
collection), and otherwise returns the sequence with its first `n`
elements removed, order preserved. -/
theorem offset_range_spec (n : Int) (coll : List RecordObj) :
    ((n < 0 ∨ (coll.length : Int) ≤ n) →
      offsetQ n coll = Except.error "Offset is out of range.")
    ∧ (0 ≤ n → n < (coll.length : Int) →
      offsetQ n coll = Except.ok (coll.drop n.toNat)
      ∧ ∀ i, (coll.drop n.toNat)[i]? = coll[n.toNat + i]?) := by
  constructor
  · intro h
    rw [offsetQ, if_pos h]
  · intro h1 h2
    refine ⟨?_, fun i => List.getElem?_drop coll n.toNat i⟩
    rw [offsetQ, if_neg (by push_neg; exact ⟨h1, h2⟩)]

/-- C4 witness: on a two-element collection, `offset(1)` drops the
first element; `offset(2)` and `offset(-1)` raise the range error, and
on the empty collection `offset(0)` raises it as well. -/
theorem offset_range_spec_witness :
    offsetQ 1 [[("a", Prim.pNum 1)], [("a", Prim.pNum 2)]] = Except.ok [[("a", Prim.pNum 2)]]
    ∧ offsetQ 2 [[("a", Prim.pNum 1)], [("a", Prim.pNum 2)]]
        = Except.error "Offset is out of range."
    ∧ offsetQ (-1) [[("a", Prim.pNum 1)], [("a", Prim.pNum 2)]]
        = Except.error "Offset is out of range."
    ∧ offsetQ 0 ([] : List RecordObj) = Except.error "Offset is out of range." := by
  refine ⟨?_, ?_, ?_, ?_⟩
  · exact (((offset_range_spec 1 [[("a", Prim.pNum 1)], [("a", Prim.pNum 2)]]).2
      (by decide) (by decide)).1).trans (by rfl)
  · exact (offset_range_spec 2 [[("a", Prim.pNum 1)], [("a", Prim.pNum 2)]]).1 (by decide)
  · exact (offset_range_spec (-1) [[("a", Prim.pNum 1)], [("a", Prim.pNum 2)]]).1 (by decide)
  · exact (offset_range_spec 0 ([] : List RecordObj)).1 (by decide)

/-- C9: `limit(n)` fails with the range error exactly when `n <= 0`,
and for `n > 0` returns the first `min(n, length)` elements in order;
an `n` beyond the current length is not an error and yields the whole
sequence. -/
theorem limit_range_spec (n : Int) (coll : List RecordObj) :
    (n ≤ 0 → limitQ n coll = Except.error "Limit must be a positive number.")
    ∧ (0 < n →
      limitQ n coll = Except.ok (coll.take n.toNat)
      ∧ (coll.take n.toNat).length = min n.toNat coll.length
      ∧ ∀ i, i < n.toNat → (coll.take n.toNat)[i]? = coll[i]?) := by
  constructor
  · intro h
    rw [limitQ, if_pos h]
  · intro h
    refine ⟨by rw [limitQ, if_neg (not_le.mpr h)], List.length_take n.toNat coll,
      fun i hi => List.getElem?_take_of_lt hi⟩

/-- C9 witness: `limit(5)` on a two-element collection yields the whole
sequence, `limit(1)` truncates, and `limit(0)` and `limit(-1)` raise
the range error. -/
theorem limit_range_spec_witness :
    limitQ 5 [[("a", Prim.pNum 1)], [("a", Prim.pNum 2)]]
        = Except.ok [[("a", Prim.pNum 1)], [("a", Prim.pNum 2)]]
    ∧ limitQ 1 [[("a", Prim.pNum 1)], [("a", Prim.pNum 2)]] = Except.ok [[("a", Prim.pNum 1)]]
    ∧ limitQ 0 [[("a", Prim.pNum 1)]] = Except.error "Limit must be a positive number."
    ∧ limitQ (-1) [[("a", Prim.pNum 1)]] = Except.error "Limit must be a positive number." := by
  refine ⟨?_, ?_, ?_, ?_⟩
  · exact (((limit_range_spec 5 [[("a", Prim.pNum 1)], [("a", Prim.pNum 2)]]).2
      (by decide)).1).trans (by rfl)
  · exact (((limit_range_spec 1 [[("a", Prim.pNum 1)], [("a", Prim.pNum 2)]]).2
      (by decide)).1).trans (by rfl)
  · exact (limit_range_spec 0 [[("a", Prim.pNum 1)]]).1 (by decide)
  · exact (limit_range_spec (-1) [[("a", Prim.pNum 1)]]).1 (by decide)

/-- C8: `paginate(p, s)` is exactly the composition
`offset((max(p,1)-1)*s)` followed by `limit(s)` (so it inherits both
range-error conditions unchanged), and any page number at most 1
behaves as page 1. -/
theorem paginate_is_offset_then_limit (p s : Int) (coll : List RecordObj) :
    paginateQ p s coll = (offsetQ ((max p 1 - 1) * s) coll).bind (limitQ s)
    ∧ (p ≤ 1 → paginateQ p s coll = paginateQ 1 s coll) := by
  refine ⟨rfl, fun h => ?_⟩
  rw [paginateQ, paginateQ, max_eq_right h, max_self]

/-- C8 witness: page 2 of size 2 over four elements is the third and
fourth element, and page 0 behaves as page 1. -/
theorem paginate_is_offset_then_limit_witness :
    paginateQ 2 2 [[("i", Prim.pNum 1)], [("i", Prim.pNum 2)], [("i", Prim.pNum 3)],
        [("i", Prim.pNum 4)]]
      = Except.ok [[("i", Prim.pNum 3)], [("i", Prim.pNum 4)]]
    ∧ paginateQ 0 1 [[("i", Prim.pNum 1)], [("i", Prim.pNum 2)]]
      = paginateQ 1 1 [[("i", Prim.pNum 1)], [("i", Prim.pNum 2)]] := by
  refine ⟨?_, ?_⟩
  · exact ((paginate_is_offset_then_limit 2 2 [[("i", Prim.pNum 1)], [("i", Prim.pNum 2)],
      [("i", Prim.pNum 3)], [("i", Prim.pNum 4)]]).1).trans (by rfl)
  · exact (paginate_is_offset_then_limit 0 1 [[("i", Prim.pNum 1)], [("i", Prim.pNum 2)]]).2
      (by decide)

/-- C2 (code bug): with a `null` or absent field value, the three
string-matching operators crash during coercion — the runtime
evaluation of `itemValue!.toString()` (src line 283) throws a
TypeError, because the TypeScript non-null assertion has no runtime
effect. The spec requires the coercion not to crash. -/
theorem like_null_field_coercion_crashes :
    whereQ [[("name", Prim.pNull)]] "name" "like" (Prim.pStr "x")
      = Except.error "TypeError: Cannot read properties of null"
    ∧ whereQ [([] : RecordObj)] "name" "like" (Prim.pStr "x")
      = Except.error "TypeError: Cannot read properties of undefined"
    ∧ whereQ [[("name", Prim.pNull)]] "name" "^like" (Prim.pStr "x")
      = Except.error "TypeError: Cannot read properties of null"
    ∧ whereQ [[("name", Prim.pNull)]] "name" "like$" (Prim.pStr "x")
      = Except.error "TypeError: Cannot read properties of null" := by
  refine ⟨rfl, rfl, rfl, rfl⟩

/-- Outside the closed operator set, the switch reaches its default
branch and throws, naming the tag (src line 211). -/
theorem whereMatch_unknown (v value : Prim) (op : String) (h : op ∉ operators) :
    whereMatch v op value = Except.error ("Unknown operator: " ++ op) := by
  simp only [operators, List.mem_cons, List.not_mem_nil, or_false, not_or] at h
  obtain ⟨h1, h2, h3, h4, h5, h6, h7, h8, h9⟩ := h
  rw [whereMatch, if_neg h1, if_neg h2, if_neg h3, if_neg h4, if_neg h5, if_neg h6,
    if_neg h7, if_neg h8, if_neg h9]

/-- C3 counterexample: on an empty collection the filter callback never
runs, so `where` with the invalid tag `====` returns an empty query
instead of failing with the unknown-operator error. -/
theorem where_unknown_operator_empty_returns :
    whereQ [] "name" "====" (Prim.pStr "do") = Except.ok [] := rfl

/-- C3 (amended): for an operator tag outside the closed nine-operator
set, `where` on a non-empty collection fails with the unknown-operator
error naming the invalid tag; on an empty collection the per-element
switch never executes and `where` returns an empty query without
error. -/
theorem where_unknown_operator (coll : List RecordObj) (key op : String) (value : Prim)
    (h : op ∉ operators) :
    (coll = [] → whereQ coll key op value = Except.ok [])
    ∧ (coll ≠ [] → whereQ coll key op value = Except.error ("Unknown operator: " ++ op)) := by
  constructor
  · intro he
    subst he
    rfl
  · intro hne
    rcases coll with _ | ⟨x, xs⟩
    · exact absurd rfl hne
    · have hx := whereMatch_unknown (getField x key) value op h
      rw [whereQ, filterE]
      show ((whereMatch (getField x key) op value).bind fun b =>
        (filterE _ xs).bind fun rest => pure (if b then x :: rest else rest)) = _
      rw [hx]
      rfl

/-- C3 witness: on a one-element collection the invalid tag `====`
raises the unknown-operator error naming it. -/
theorem where_unknown_operator_witness :
    whereQ [[("name", Prim.pStr "a")]] "name" "====" (Prim.pStr "do")
      = Except.error "Unknown operator: ====" := by
  exact ((where_unknown_operator [[("name", Prim.pStr "a")]] "name" "====" (Prim.pStr "do")
    (by decide)).2 (by simp)).trans (by rfl)

/-- When every field value is a number or null-like, the `sum` reduce
accumulates without error. -/
theorem sumFold_ok (key : String) (coll : List RecordObj)
    (h : ∀ item ∈ coll, isBadSumValue (getField item key) = false) :
    ∀ acc : Int, sumFold key acc coll =
      Except.ok (acc + (coll.map (fun item => numVal (getField item key))).sum) := by
  induction coll with
  | nil =>
    intro acc
    simp [sumFold]
  | cons x xs ih =>
    intro acc
    have hx := h x (List.mem_cons_self x xs)
    have hxs : ∀ item ∈ xs, isBadSumValue (getField item key) = false :=
      fun item hm => h item (List.mem_cons_of_mem x hm)
    cases hv : getField x key with
    | pNull =>
      have hstep : sumFold key acc (x :: xs) = sumFold key acc xs := by
        simp [sumFold, sumStep, hv]
      rw [hstep, ih hxs acc]
      simp [hv, numVal]
    | pUndefined =>
      have hstep : sumFold key acc (x :: xs) = sumFold key acc xs := by
        simp [sumFold, sumStep, hv]
      rw [hstep, ih hxs acc]
      simp [hv, numVal]
    | pNum k =>
      have hstep : sumFold key acc (x :: xs) = sumFold key (acc + k) xs := by
        simp [sumFold, sumStep, hv]
      rw [hstep, ih hxs (acc + k)]
      simp [hv, numVal, add_assoc]
    | pBool b =>
      rw [hv] at hx
      simp [isBadSumValue] at hx
    | pStr s1 =>
      rw [hv] at hx
      simp [isBadSumValue] at hx

/-- When some field value is present and non-numeric, the `sum` reduce
throws the numeric TypeError. -/
theorem sumFold_error (key : String) (coll : List RecordObj)
    (h : ∃ item ∈ coll, isBadSumValue (getField item key) = true) :
    ∀ acc : Int, sumFold key acc coll = Except.error (sumErrMsg key) := by
  induction coll with
  | nil => simp at h
  | cons x xs ih =>
    intro acc
    by_cases hx : isBadSumValue (getField x key) = true
    · cases hv : getField x key with
      | pBool b => simp [sumFold, sumStep, hv]
      | pStr s1 => simp [sumFold, sumStep, hv]
      | pNull =>
        rw [hv] at hx
        simp [isBadSumValue] at hx
      | pUndefined =>
        rw [hv] at hx
        simp [isBadSumValue] at hx
      | pNum k =>
        rw [hv] at hx
        simp [isBadSumValue] at hx
    · have hxs : ∃ item ∈ xs, isBadSumValue (getField item key) = true := by
        rcases h with ⟨it, hm, hbad⟩
        rcases List.mem_cons.mp hm with h1 | h1
        · exact absurd (h1 ▸ hbad) hx
        · exact ⟨it, h1, hbad⟩
      cases hv : getField x key with
      | pNull =>
        have hstep : sumFold key acc (x :: xs) = sumFold key acc xs := by
          simp [sumFold, sumStep, hv]
        rw [hstep]
        exact ih hxs acc
      | pUndefined =>
        have hstep : sumFold key acc (x :: xs) = sumFold key acc xs := by
          simp [sumFold, sumStep, hv]
        rw [hstep]
        exact ih hxs acc
      | pNum k =>
        have hstep : sumFold key acc (x :: xs) = sumFold key (acc + k) xs := by
          simp [sumFold, sumStep, hv]
        rw [hstep]
        exact ih hxs (acc + k)
      | pBool b =>
        rw [hv] at hx
        simp [isBadSumValue] at hx
      | pStr s1 =>
        rw [hv] at hx
        simp [isBadSumValue] at hx

/-- C6: `sum(key)` returns the sum of the numeric field values, a
missing or null-like value contributing 0 and being skipped without
error; whenever some present value is not numeric it fails with the
TypeError-class message naming the field; and the result is 0 on the
empty collection (an all-absent field falls under the first part, every
contribution being 0). -/
theorem sum_numeric_fields (key : String) (coll : List RecordObj) :
    ((∀ item ∈ coll, isBadSumValue (getField item key) = false) →
      sumQ key coll = Except.ok ((coll.map (fun item => numVal (getField item key))).sum))
    ∧ ((∃ item ∈ coll, isBadSumValue (getField item key) = true) →
      sumQ key coll = Except.error (sumErrMsg key))
    ∧ sumQ key [] = Except.ok 0 := by
  refine ⟨fun h => ?_, fun h => sumFold_error key coll h 0, rfl⟩
  rw [sumQ, sumFold_ok key coll h 0, zero_add]

/-- C6 witness: the specification examples — summing `k` over
`[{k:10},{k:20},{}]` gives 30 (the element lacking the field is
skipped), over `[{k:null}]` gives 0, and over `[{k:"x"}]` raises the
numeric TypeError naming `k`. -/
theorem sum_numeric_fields_witness :
    sumQ "k" [[("k", Prim.pNum 10)], [("k", Prim.pNum 20)], ([] : RecordObj)] = Except.ok 30
    ∧ sumQ "k" [[("k", Prim.pNull)]] = Except.ok 0
    ∧ sumQ "k" [[("k", Prim.pStr "x")]] = Except.error (sumErrMsg "k") := by
  refine ⟨?_, ?_, ?_⟩
  · exact ((sum_numeric_fields "k"
      [[("k", Prim.pNum 10)], [("k", Prim.pNum 20)], ([] : RecordObj)]).1 (by decide)).trans
      (by rfl)
  · exact ((sum_numeric_fields "k" [[("k", Prim.pNull)]]).1 (by decide)).trans (by rfl)
  · exact (sum_numeric_fields "k" [[("k", Prim.pStr "x")]]).2.1 (by decide)

/-- The `keyBy` fold, lookup-characterised with a general accumulator:
looking up `s` in the built mapping finds the last element whose owned
field coerces to `s`, falling back to the accumulator. -/
theorem keyBy_fold (key : String) (coll : List RecordObj) (s : String) :
    ∀ acc : List (String × RecordObj),
      alookup (coll.foldl (fun acc item =>
          if hasField item key then aset acc (toPropKey (getField item key)) item else acc) acc) s
      = coll.foldl (fun o item =>
          if hasField item key && decide (toPropKey (getField item key) = s) then some item
          else o)
          (alookup acc s) := by
  induction coll with
  | nil => intro acc; rfl
  | cons x xs ih =>
    intro acc
    rw [List.foldl_cons, List.foldl_cons, ih]
    congr 1
    by_cases hf : hasField x key
    · rw [if_pos hf, alookup_aset]
      by_cases hs : s = toPropKey (getField x key)
      · rw [if_pos hs, if_pos (by simp [hf, hs])]
      · rw [if_neg hs, if_neg (by simp [hf]; exact fun hx => hs hx.symm)]
    · rw [if_neg (by simp [hf]), if_neg (by simp [hf])]

/-- C7: looking up any key `s` in the mapping built by `keyBy` yields
exactly the last element (in sequence order) that owns the field and
whose coerced field value is `s`: elements lacking the field are never
mapped, duplicate key values resolve last-write-wins, and an element
with a unique owned key value is mapped from its coerced field value to
itself. -/
theorem keyBy_last_write_wins (key : String) (coll : List RecordObj) (s : String) :
    alookup (keyByQ key coll) s =
      lastMatch
        (fun item => hasField item key && decide (toPropKey (getField item key) = s)) coll :=
  keyBy_fold key coll s []

/-- A sequence consisting of record objects always passes the
constructor validation. -/
theorem constructCheck_obj (l : List RecordObj) :
    constructCheck (l.map Item.obj) = Except.ok (l.map Item.obj) := by
  rw [constructCheck, if_neg]
  simp [List.any_map, Function.comp, isInvalidItem]

/-- C10: every sequence built by a transform out of a validly
constructed query consists of non-null record objects, so the
constructor check re-run on the freshly built sequence of `limit`,
`offset`, `paginate`, `where` or `select` succeeds — the validation
error branch is unreachable on derived queries. -/
theorem transforms_preserve_validity (coll : List RecordObj) (n m p s : Int)
    (key op : String) (value : Prim) (keys : List String) :
    (∀ l, limitQ n coll = Except.ok l →
      constructCheck (l.map Item.obj) = Except.ok (l.map Item.obj))
    ∧ (∀ l, offsetQ m coll = Except.ok l →
      constructCheck (l.map Item.obj) = Except.ok (l.map Item.obj))
    ∧ (∀ l, paginateQ p s coll = Except.ok l →
      constructCheck (l.map Item.obj) = Except.ok (l.map Item.obj))
    ∧ (∀ l, whereQ coll key op value = Except.ok l →
      constructCheck (l.map Item.obj) = Except.ok (l.map Item.obj))
    ∧ constructCheck ((selectQ keys coll).map Item.obj)
        = Except.ok ((selectQ keys coll).map Item.obj) :=
  ⟨fun l _ => constructCheck_obj l, fun l _ => constructCheck_obj l,
    fun l _ => constructCheck_obj l, fun l _ => constructCheck_obj l,
    constructCheck_obj (selectQ keys coll)⟩

/-- C10 witness: concrete derived sequences — `limit(1)` and
`select("a")` over a one-element collection — pass the constructor
check. -/
theorem transforms_preserve_validity_witness :
    constructCheck (([[("a", Prim.pNum 1)]] : List RecordObj).map Item.obj)
      = Except.ok (([[("a", Prim.pNum 1)]] : List RecordObj).map Item.obj)
    ∧ constructCheck ((selectQ ["a"] [[("a", Prim.pNum 1)]]).map Item.obj)
      = Except.ok ((selectQ ["a"] [[("a", Prim.pNum 1)]]).map Item.obj) :=
  ⟨(transforms_preserve_validity [[("a", Prim.pNum 1)]] 1 0 1 1 "a" "===" (Prim.pNum 1)
      ["a"]).1 [[("a", Prim.pNum 1)]] (by rfl),
    (transforms_preserve_validity [[("a", Prim.pNum 1)]] 1 0 1 1 "a" "===" (Prim.pNum 1)
      ["a"]).2.2.2.2⟩

/-- Every lifted transform preserves the pre-existing heap and
allocates a fresh array for its result. -/
theorem liftT_preserves (f : List RecordObj → Except String (List RecordObj))
    (h : Heap) (q : QueryRef) :
    preservesHeap h (liftT f h q) := by
  intro h2 q2 hok
  cases hf : f (h.look q.ref) with
  | error e =>
    rw [liftT, hf] at hok
    exact absurd hok (by simp [Except.map])
  | ok fresh =>
    rw [liftT, hf] at hok
    simp only [Except.map] at hok
    have hpair : (h.alloc fresh, QueryRef.mk h.arrays.length) = (h2, q2) :=
      Except.ok.inj hok
    have hh2 : h2 = h.alloc fresh := (Prod.mk.injEq _ _ _ _ ▸ hpair).1.symm
    have hq2 : q2 = QueryRef.mk h.arrays.length := (Prod.mk.injEq _ _ _ _ ▸ hpair).2.symm
    subst hh2
    subst hq2
    refine ⟨fun i hi => List.getElem?_append_left hi, le_refl _, ?_⟩
    simp [Heap.alloc]

/-- C5 (amended): no transform mutates any existing array — `limit`,
`offset`, `paginate`, `where` and `select` each leave every
pre-existing array unchanged and return a new query wrapping a freshly
allocated sequence. (The further statement of the original claim, that
external mutation of the constructor argument is unobservable, fails:
see the counterexample.) -/
theorem transforms_never_mutate (h : Heap) (q : QueryRef) (n m p s : Int)
    (key op : String) (value : Prim) (keys : List String) :
    preservesHeap h (limitH h q n)
    ∧ preservesHeap h (offsetH h q m)
    ∧ preservesHeap h (paginateH h q p s)
    ∧ preservesHeap h (whereH h q key op value)
    ∧ preservesHeap h (selectH h q keys) := by
  refine ⟨liftT_preserves _ _ _, liftT_preserves _ _ _, ?_,
    liftT_preserves _ _ _, liftT_preserves _ _ _⟩
  intro h2 q2 hok
  rw [paginateH] at hok
  cases hoff : offsetH h q ((max p 1 - 1) * s) with
  | error e =>
    rw [hoff] at hok
    exact absurd hok (by simp [Bind.bind, Except.bind])
  | ok pr =>
    rcases pr with ⟨h1, q1⟩
    rw [hoff] at hok
    have hlim : limitH h1 q1 s = Except.ok (h2, q2) := hok
    have p1 := liftT_preserves (offsetQ ((max p 1 - 1) * s)) h q h1 q1 hoff
    have p2 := liftT_preserves (limitQ s) h1 q1 h2 q2 hlim
    refine ⟨fun i hi => ?_, ?_, ?_⟩
    · rw [p2.1 i (lt_trans hi p1.2.2), p1.1 i hi]
    · exact le_trans (le_of_lt p1.2.2) p2.2.1
    · exact lt_trans p1.2.2 p2.2.2

/-- C5 witness: a concrete `limit` call on a one-array heap leaves the
existing array in place and returns a query over the freshly allocated
second array. -/
theorem transforms_never_mutate_witness :
    limitH (Heap.mk [[[("a", Prim.pNum 1)]]]) (QueryRef.mk 0) 1
      = Except.ok (Heap.mk [[[("a", Prim.pNum 1)]], [[("a", Prim.pNum 1)]]], QueryRef.mk 1)
    ∧ (Heap.mk [[[("a", Prim.pNum 1)]], [[("a", Prim.pNum 1)]]]).arrays[0]?
      = (Heap.mk [[[("a", Prim.pNum 1)]]]).arrays[0]?
    ∧ 1 ≤ (QueryRef.mk 1).ref := by
  have hap := (transforms_never_mutate (Heap.mk [[[("a", Prim.pNum 1)]]]) (QueryRef.mk 0)
    1 0 1 1 "a" "===" (Prim.pNum 1) ["a"]).1
    (Heap.mk [[[("a", Prim.pNum 1)]], [[("a", Prim.pNum 1)]]]) (QueryRef.mk 1) (by rfl)
  exact ⟨by rfl, hap.1 0 (by decide), hap.2.1⟩

/-- C5 counterexample: the constructor keeps the reference to the
caller array; mutating that array externally after construction and
then calling `limit(2)` yields both elements, while `limit(2)` of the
construction-time sequence yields only the original element — the
external mutation is observable through the transform. -/
theorem construct_alias_mutation_observable :
    constructH 0 = QueryRef.mk 0
    ∧ Heap.pushAt (Heap.mk [[[("a", Prim.pNum 1)]]]) 0 [("a", Prim.pNum 2)]
      = Heap.mk [[[("a", Prim.pNum 1)], [("a", Prim.pNum 2)]]]
    ∧ limitH (Heap.mk [[[("a", Prim.pNum 1)], [("a", Prim.pNum 2)]]]) (constructH 0) 2
      = Except.ok (Heap.mk [[[("a", Prim.pNum 1)], [("a", Prim.pNum 2)]],
          [[("a", Prim.pNum 1)], [("a", Prim.pNum 2)]]], QueryRef.mk 1)
    ∧ limitQ 2 [[("a", Prim.pNum 1)]] = Except.ok [[("a", Prim.pNum 1)]]
    ∧ ([[("a", Prim.pNum 1)], [("a", Prim.pNum 2)]] : List RecordObj)
        ≠ [[("a", Prim.pNum 1)]] := by
  refine ⟨rfl, rfl, rfl, rfl, by decide⟩
